import Mathlib

/-!
# bootkube: waiting for the self-hosted control plane (`pkg/bootkube/status.go`)

A shallow embedding of `statusController` and of `WaitUntilPodsRunning`.

* Go strings are Lean strings; the names and keys involved are ASCII, where the
  byte-wise operations of Go (`strings.HasPrefix`, `path.Clean`) and the
  character-wise ones used here agree.
* A Go `error` is represented by its message; `nil` is `none`.
* A Go `map[string]v1.PodPhase` is an association list with distinct keys
  (`AList`); a nil map is `none`.
* The pod store (`cache.Store`) is shared with the informer goroutine.  One call
  of `PodStatus` sees it as a value of type `Store`: the list of keys returned by
  `ListKeys` and the answer of `GetByKey` for every key.  The two parts are not
  assumed to agree with each other.
* Side effects (`UserOutput`, `glog.Infof`, `etcdutil.Migrate`) are recorded as a
  list of events, in program order.
-/

namespace Bootkube

/-! ## Data model -/

/-- Message of a Go `error`. -/
abbrev Error := String

/-- The type `v1.PodPhase` is a string type. -/
abbrev PodPhase := String

def PodPending : PodPhase := "Pending"
def PodRunning : PodPhase := "Running"
def PodSucceeded : PodPhase := "Succeeded"
def PodFailed : PodPhase := "Failed"
def PodUnknown : PodPhase := "Unknown"

def appKey : String := "k8s-app"
def doesNotExist : PodPhase := "DoesNotExist"

/-- The constant `api.NamespaceSystem`. -/
def NamespaceSystem : String := "kube-system"

/-- The part of `v1.Pod` that is read: `Status.Phase`. -/
structure Pod where
  Phase : PodPhase
deriving DecidableEq, Repr

/-- An item of a `cache.Store` is an `interface{}`: either a `*v1.Pod` or a value
of some other dynamic type, for which the assertion `p.(*v1.Pod)` fails. -/
inductive Object where
  | pod (p : Pod)
  | other
deriving DecidableEq, Repr

/-- The two methods of `cache.Store` that are called.  `GetByKey` returns
`(item, exists, err)`: `.error err` when `err != nil`, `.ok none` when
`!exists`, `.ok (some item)` otherwise. -/
structure Store where
  ListKeys : List String
  GetByKey : String → Except Error (Option Object)

deriving instance DecidableEq for Except

/-- A non-nil `map[string]v1.PodPhase`. -/
abbrev PhaseMap := AList (fun _ : String => PodPhase)

/-- The fields of `statusController` that are read or written after construction
(`client` is only used to build the informer). -/
structure statusController where
  podStore : Store
  watchPods : List String
  lastPodPhases : Option PhaseMap

/-- Observable effects, in program order. -/
inductive Event where
  | UserOutput (format : String) (args : List String)
  | glogInfof (format : String) (args : List String)
  | Migrate
deriving DecidableEq, Repr

/-! ## Library functions of Go used by the code -/

/-- The function `strings.HasPrefix`. -/
def HasPrefix (s pre : String) : Bool :=
  pre.data.isPrefixOf s.data

/-- In `path.Clean`, the `..` case rewinds the output:
`for out.w > dotdot && out.index(out.w) != '/' { out.w-- }`. -/
def Clean.backtrack (out : List Char) (dotdot : Nat) : Nat → Nat
  | 0 => 0
  | w + 1 =>
    if w + 1 > dotdot && out.getD (w + 1) '/' != '/' then Clean.backtrack out dotdot w
    else w + 1

/-- In `path.Clean`, the effect of a `..` element on the output buffer and on
`dotdot`. -/
def Clean.dotdotElem (rooted : Bool) (out : List Char) (dotdot : Nat) : List Char × Nat :=
  if out.length > dotdot then
    (out.take (Clean.backtrack out dotdot (out.length - 1)), dotdot)
  else if !rooted then
    let out1 := if out.length > 0 then out ++ ['/'] else out
    (out1 ++ ['.', '.'], (out1 ++ ['.', '.']).length)
  else (out, dotdot)

/-- The main loop of `path.Clean` over the unread part of the path.  The flag
`copying` is set while the inner loop that copies a path element is running. -/
def Clean.loop (rooted : Bool) : List Char → Bool → List Char → Nat → List Char
  | [], _, out, _ => out
  | c :: t, true, out, dotdot =>
    if c = '/' then Clean.loop rooted t false out dotdot
    else Clean.loop rooted t true (out ++ [c]) dotdot
  | c :: t, false, out, dotdot =>
    let sep : Bool := (rooted && out.length != 1) || (!rooted && out.length != 0)
    let real := Clean.loop rooted t true ((if sep then out ++ ['/'] else out) ++ [c]) dotdot
    if c = '/' then Clean.loop rooted t false out dotdot
    else if c = '.' ∧ (t = [] ∨ t.head? = some '/') then Clean.loop rooted t false out dotdot
    else
      match t with
      | [] => real
      | c2 :: t2 =>
        if c = '.' ∧ c2 = '.' ∧ (t2 = [] ∨ t2.head? = some '/') then
          Clean.loop rooted t2 false (Clean.dotdotElem rooted out dotdot).1
            (Clean.dotdotElem rooted out dotdot).2
        else real

/-- The function `path.Clean`. -/
def Clean (path : String) : String :=
  if path = "" then "."
  else
    let rooted : Bool := path.data.head? = some '/'
    let out := Clean.loop rooted (if rooted then path.data.tail else path.data) false
      (if rooted then ['/'] else []) (if rooted then 1 else 0)
    if out.length = 0 then "." else String.mk out

/-- The function `path.Join`: the elements from the first non-empty one on are
joined with slashes and cleaned. -/
def Join (elem : List String) : String :=
  match elem.dropWhile (fun e => e = "") with
  | [] => ""
  | rest => Clean ("/".intercalate rest)

/-- The function `reflect.DeepEqual` on two values of type
`map[string]v1.PodPhase`: both nil, or both non-nil with the same length and
the same value under every key. -/
def DeepEqual : Option PhaseMap → Option PhaseMap → Bool
  | none, none => true
  | some a, some b =>
    decide (a.entries.length = b.entries.length) &&
      a.entries.all (fun e => b.lookup e.1 == some e.2)
  | _, _ => false

/-! ## `statusController` -/

/-- The inner loop of `PodStatus` (lines 122-127): the key looked up for the
logical name `pod`. -/
def PodStatus.podName (podNames : List String) (pod : String) : String :=
  podNames.foldl
    (fun podName pn => if HasPrefix pn (Join [NamespaceSystem, pod]) then pn else podName) pod

/-- One iteration of the outer loop of `PodStatus` (lines 120-139). -/
def PodStatus.body (podStore : Store) (podNames : List String) (status : PhaseMap)
    (pod : String) : Except Error PhaseMap :=
  match podStore.GetByKey (PodStatus.podName podNames pod) with
  | .error err => .error err
  | .ok none => .ok (status.insert pod doesNotExist)
  | .ok (some (.pod p)) => .ok (status.insert pod p.Phase)
  | .ok (some .other) => .ok status

/-- The method `statusController.PodStatus`. -/
def PodStatus (s : statusController) : Except Error PhaseMap :=
  s.watchPods.foldlM (PodStatus.body s.podStore s.podStore.ListKeys) ∅

/-- What a call of `AllRunning` returns and does. -/
structure AllRunning.Result where
  running : Bool
  err : Option Error
  out : List Event
  sc : statusController

/-- The `range ps` loop of `AllRunning` (lines 104-112).  Go does not specify the
order in which the entries are visited; the order of the association list is
used. -/
def AllRunning.range (changed : Bool) (ps : PhaseMap) : Bool × List Event :=
  ps.entries.foldl
    (fun acc e =>
      (if e.2 != PodRunning then false else acc.1,
       if changed then acc.2 ++ [Event.UserOutput "\tPod Status:%24s\t%s\n" [e.1, e.2]]
       else acc.2))
    (true, [])

/-- The method `statusController.AllRunning`. -/
def AllRunning (s : statusController) : AllRunning.Result :=
  match PodStatus s with
  | .error err =>
    ⟨false, none, [Event.glogInfof "Error retriving pod statuses: %v" [err]], s⟩
  | .ok ps =>
    let s1 := if s.lastPodPhases.isNone then { s with lastPodPhases := some ps } else s
    let changed := !DeepEqual (some ps) s1.lastPodPhases
    let s2 := { s1 with lastPodPhases := some ps }
    let r := AllRunning.range changed ps
    ⟨r.1, none, r.2, s2⟩

/-! ## `WaitUntilPodsRunning` -/

/-- The error `wait.ErrWaitTimeout` of `k8s.io/kubernetes/pkg/util/wait`. -/
def ErrWaitTimeout : Error := "timed out waiting for the condition"

/-- What the surroundings contribute to one run of `WaitUntilPodsRunning`.

* `NewForConfig`: the error of `clientset.NewForConfig`, if any.
* `ticks`: the content of the pod store at each invocation of the condition by
  `wait.Poll`, up to and including the last one it makes before the deadline;
  the `timeout` argument is represented by the length of this list.
* `Migrate`: the error of `etcdutil.Migrate`, if any, should it be called. -/
structure Env where
  NewForConfig : Option Error
  ticks : List Store
  Migrate : Option Error

/-- A store as `cache.NewInformer` creates it: without content. -/
def newStore : Store := ⟨[], fun _ => .ok none⟩

/-- The constructor `NewStatusController`.  Go leaves `podStore` nil until `Run`;
the embedding puts a store without content there. -/
def NewStatusController (env : Env) (pods : List String) : Except Error statusController :=
  match env.NewForConfig with
  | some err => .error err
  | none => .ok ⟨newStore, pods, none⟩

/-- The method `statusController.Run`: `podStore` becomes the store of a new
informer, which the informer goroutine fills from then on. -/
def Run (s : statusController) : statusController :=
  { s with podStore := newStore }

/-- What `wait.Poll` returns and does. -/
structure Poll.Result where
  err : Option Error
  out : List Event
  sc : statusController

/-- The call `wait.Poll(5*time.Second, timeout, sc.AllRunning)` of the library
`k8s.io/kubernetes/pkg/util/wait`: the condition is invoked once per tick, on
the store as it is then, until it returns true (result nil) or an error (result
that error); when the ticks before the deadline are used up the result is
`ErrWaitTimeout`. -/
def Poll (sc : statusController) : List Store → Poll.Result
  | [] => ⟨some ErrWaitTimeout, [], sc⟩
  | store :: rest =>
    let r := AllRunning { sc with podStore := store }
    match r.err with
    | some err => ⟨some err, r.out, r.sc⟩
    | none =>
      if r.running then ⟨none, r.out, r.sc⟩
      else
        let p := Poll r.sc rest
        ⟨p.err, r.out ++ p.out, p.sc⟩

/-- The line printed on success. -/
def successLine : Event :=
  Event.UserOutput "All self-hosted control plane components successfully started\n" []

/-- The function `WaitUntilPodsRunning`: the returned error and the effects. -/
def WaitUntilPodsRunning (env : Env) (pods : List String) (selfHostedEtcd : Bool) :
    Option Error × List Event :=
  match NewStatusController env pods with
  | .error err => (some err, [])
  | .ok sc =>
    let p := Poll (Run sc) env.ticks
    match p.err with
    | some err => (some ("error while checking pod status: " ++ err), p.out)
    | none =>
      if selfHostedEtcd then
        match env.Migrate with
        | some err => (some err, p.out ++ [Event.Migrate])
        | none => (none, p.out ++ [Event.Migrate, successLine])
      else (none, p.out ++ [successLine])

/-- The phase that `PodStatus.body` records for `pod`, if it records one; `old` is
what the map held before. -/
def PodStatus.recorded (podStore : Store) (podNames : List String) (old : Option PodPhase)
    (pod : String) : Option PodPhase :=
  match podStore.GetByKey (PodStatus.podName podNames pod) with
  | .ok none => some doesNotExist
  | .ok (some (.pod p)) => some p.Phase
  | _ => old

/-- The event of the call `UserOutput("\tPod Status:%24s\t%s\n", p, s)`. -/
def statusLine (e : Sigma fun _ : String => PodPhase) : Event :=
  Event.UserOutput "\tPod Status:%24s\t%s\n" [e.1, e.2]

/-- The controller on which `WaitUntilPodsRunning` polls: constructed by
`NewStatusController` without error, then started by `Run`. -/
def started (pods : List String) : statusController :=
  Run ⟨newStore, pods, none⟩

/-! ## Concrete stores and controllers -/

/-- Scenario A: both targets have a running pod. -/
def storeA : Store :=
  ⟨["kube-system/etcd-7f3a", "kube-system/apiserver-91bc"], fun k =>
    if k = "kube-system/etcd-7f3a" then .ok (some (.pod ⟨PodRunning⟩))
    else if k = "kube-system/apiserver-91bc" then .ok (some (.pod ⟨PodRunning⟩))
    else .ok none⟩

def scA : statusController := ⟨storeA, ["etcd", "apiserver"], none⟩

def psA : PhaseMap := ((∅ : PhaseMap).insert "etcd" PodRunning).insert "apiserver" PodRunning

/-- Scenario B: one target, a new controller, nothing in the store. -/
def scB : statusController := ⟨newStore, ["scheduler"], none⟩

def psB : PhaseMap := (∅ : PhaseMap).insert "scheduler" doesNotExist

/-- The store answers with an error for the bare name, and lists nothing. -/
def storeErr : Store := ⟨[], fun _ => .error "store closed"⟩

def scErr : statusController := ⟨storeErr, ["scheduler"], some psB⟩

/-- A first tick sees a running pod for the target `a`. -/
def storeRun : Store :=
  ⟨["kube-system/a-1"], fun k =>
    if k = "kube-system/a-1" then .ok (some (.pod ⟨PodRunning⟩)) else .ok none⟩

/-- A later tick finds an object under the same key that is not a pod. -/
def storeOther : Store :=
  ⟨["kube-system/a-1"], fun k =>
    if k = "kube-system/a-1" then .ok (some .other) else .ok none⟩

/-- A later tick finds the pod failed. -/
def storeFail : Store :=
  ⟨["kube-system/a-1"], fun k =>
    if k = "kube-system/a-1" then .ok (some (.pod ⟨PodFailed⟩)) else .ok none⟩

def psRun : PhaseMap := (∅ : PhaseMap).insert "a" PodRunning

def psFail : PhaseMap := (∅ : PhaseMap).insert "a" PodFailed

/-- A new controller that watches the target `a`. -/
def scNew : statusController := ⟨newStore, ["a"], none⟩

/-- The controller after a first successful call of `AllRunning` on `storeRun`. -/
def scAfterRun : statusController := (AllRunning { scNew with podStore := storeRun }).sc

/-- A store that holds one pod, named `etcd`, in the namespace `kube-system`. -/
def storeBare : Store :=
  ⟨["kube-system/etcd"], fun k =>
    if k = "kube-system/etcd" then .ok (some (.pod ⟨PodRunning⟩)) else .ok none⟩

/-- The target is written with its namespace. -/
def scBare : statusController := ⟨storeBare, ["kube-system/etcd"], none⟩

def psBare : PhaseMap := (∅ : PhaseMap).insert "kube-system/etcd" PodRunning

/-- Two pods match the target `etcd`: a failed one listed first and a running
one listed last. -/
def storeTwo : Store :=
  ⟨["kube-system/etcd-old", "kube-system/other", "kube-system/etcd-new", "kube-system/zzz"],
    fun k =>
      if k = "kube-system/etcd-old" then .ok (some (.pod ⟨PodFailed⟩))
      else if k = "kube-system/other" then .ok (some (.pod ⟨PodPending⟩))
      else if k = "kube-system/etcd-new" then .ok (some (.pod ⟨PodRunning⟩))
      else if k = "kube-system/zzz" then .ok (some (.pod ⟨PodPending⟩))
      else .ok none⟩

def scTwo : statusController := ⟨storeTwo, ["etcd"], none⟩

def psTwo : PhaseMap := (∅ : PhaseMap).insert "etcd" PodRunning

/-- The controller watches `a`, and the object under the matching key is not a
pod. -/
def scOther : statusController := ⟨storeOther, ["a"], none⟩

/-- A run over three ticks, none of which finds a pod; the client is built
without error. -/
def envB : Env := ⟨none, [newStore, newStore, newStore], none⟩

/-- A run whose second tick finds the pod of `a` running. -/
def envRun : Env := ⟨none, [newStore, storeRun, storeFail], none⟩

/-- A run in which the client cannot be built. -/
def envFatal : Env := ⟨some "invalid configuration", [storeRun], none⟩
/-! ## Lemmas on the library functions and on the loops -/

theorem Clean_loop_copy (rooted : Bool) (dotdot : Nat) :
    ∀ (t out : List Char), '/' ∉ t → Clean.loop rooted t true out dotdot = out ++ t := by
  intro t
  induction t with
  | nil => intro out _; simp [Clean.loop]
  | cons c t ih =>
    intro out h
    have hc : c ≠ '/' := fun hc => h (hc ▸ List.mem_cons_self _ _)
    have ht : '/' ∉ t := fun ht => h (List.mem_cons_of_mem _ ht)
    rw [Clean.loop, if_neg hc, ih _ ht]
    simp

theorem Clean_loop_copy_until (rooted : Bool) (dotdot : Nat) (rest : List Char) :
    ∀ (a out : List Char), '/' ∉ a →
      Clean.loop rooted (a ++ '/' :: rest) true out dotdot =
        Clean.loop rooted rest false (out ++ a) dotdot := by
  intro a
  induction a with
  | nil => intro out _; simp [Clean.loop]
  | cons c t ih =>
    intro out h
    have hc : c ≠ '/' := fun hc => h (hc ▸ List.mem_cons_self _ _)
    have ht : '/' ∉ t := fun ht => h (List.mem_cons_of_mem _ ht)
    rw [List.cons_append, Clean.loop, if_neg hc, ih _ ht]
    simp

theorem Clean_loop_elem (c : Char) (t out : List Char) (hc1 : c ≠ '/') (hc2 : c ≠ '.')
    (ht : '/' ∉ t) (hout : out ≠ []) :
    Clean.loop false (c :: t) false out 0 = out ++ '/' :: c :: t := by
  have hlen : out.length ≠ 0 := fun h => hout (List.length_eq_zero.mp h)
  cases t with
  | nil =>
    rw [Clean.loop.eq_3]
    simp [Clean.loop, hlen, hc1, hc2]
  | cons c2 t2 =>
    rw [Clean.loop.eq_4]
    simp only [if_neg hc1, hc2, false_and, if_false]
    rw [Clean_loop_copy false 0 (c2 :: t2) _ ht]
    simp [hlen]

/-- For a logical name without a slash that is not empty and does not start with
a dot, `path.Join(api.NamespaceSystem, pod)` is `kube-system/` followed by the
name. -/
theorem Join_plain_name (pod : String) (h1 : '/' ∉ pod.data) (h2 : pod.data.head? ≠ some '.')
    (h3 : pod ≠ "") : Join [NamespaceSystem, pod] = "kube-system/" ++ pod := by
  obtain ⟨l⟩ := pod
  cases l with
  | nil => exact absurd rfl h3
  | cons c t =>
    have hc1 : c ≠ '/' := fun hc => h1 (hc ▸ List.mem_cons_self _ _)
    have hc2 : c ≠ '.' := fun hc => h2 (by simp [hc])
    have ht : '/' ∉ t := fun ht => h1 (List.mem_cons_of_mem _ ht)
    have hdata : ("/".intercalate [NamespaceSystem, String.mk (c :: t)]).data =
        'k' :: ("ube-system".data ++ '/' :: c :: t) := by
      simp [String.intercalate, String.intercalate.go, NamespaceSystem]
    have hloop : Clean.loop false ('k' :: ("ube-system".data ++ '/' :: c :: t)) false [] 0 =
        "kube-system/".data ++ c :: t := by
      show Clean.loop false ('k' :: 'u' :: ("be-system".data ++ '/' :: c :: t)) false [] 0 = _
      rw [Clean.loop.eq_4]
      simp only [Char.reduceEq, if_false, false_and]
      have hreal : Clean.loop false ('u' :: ("be-system".data ++ '/' :: c :: t)) true ['k'] 0 =
          "kube-system/".data ++ c :: t := by
        show Clean.loop false ("ube-system".data ++ '/' :: c :: t) true ['k'] 0 = _
        rw [Clean_loop_copy_until false 0 (c :: t) "ube-system".data ['k'] (by decide)]
        rw [Clean_loop_elem c t _ hc1 hc2 ht (by simp)]
        simp
      simpa using hreal
    have hne : "/".intercalate [NamespaceSystem, String.mk (c :: t)] ≠ "" := by
      intro h
      have := congrArg String.data h
      rw [hdata] at this
      cases this
    unfold Join
    have hdrop : List.dropWhile (fun e => decide (e = "")) [NamespaceSystem, String.mk (c :: t)] =
        [NamespaceSystem, String.mk (c :: t)] := by
      simp [List.dropWhile, NamespaceSystem]
    rw [hdrop]
    simp only []
    unfold Clean
    rw [if_neg hne, hdata]
    simp only [List.head?_cons, Option.some.injEq, Char.reduceEq, decide_False, if_false,
      Bool.false_eq_true]
    rw [hloop]
    apply String.ext
    simp

theorem foldlM_body_lookup (st : Store) (pn : List String) :
    ∀ (l : List String) (init ps : PhaseMap),
      l.foldlM (PodStatus.body st pn) init = .ok ps →
      ∀ k, ps.lookup k =
        if k ∈ l then PodStatus.recorded st pn (init.lookup k) k else init.lookup k := by
  intro l
  induction l with
  | nil =>
    intro init ps h k
    simp only [List.foldlM, pure, Except.pure] at h
    cases h
    simp
  | cons pod rest ih =>
    intro init ps h k
    rw [List.foldlM_cons] at h
    cases hb : PodStatus.body st pn init pod with
    | error e => rw [hb] at h; cases h
    | ok s1 =>
      rw [hb] at h
      have h1 := ih s1 ps h k
      rw [h1]
      unfold PodStatus.body at hb
      by_cases hk : k = pod
      · subst hk
        simp only [List.mem_cons, true_or, if_true]
        unfold PodStatus.recorded
        split at hb
        · cases hb
        · cases hb; simp [AList.lookup_insert]
          split <;> simp [*] at *
        · cases hb; simp [AList.lookup_insert]
          split <;> simp [*] at *
        · cases hb; simp [*]
      · have hs1 : s1.lookup k = init.lookup k := by
          split at hb
          · cases hb
          · cases hb; exact AList.lookup_insert_ne hk
          · cases hb; exact AList.lookup_insert_ne hk
          · cases hb; rfl
        simp only [List.mem_cons, hk, false_or, hs1]


theorem foldlM_body_error (st : Store) (pn : List String) :
    ∀ (l : List String) (init : PhaseMap),
      (∃ e, l.foldlM (PodStatus.body st pn) init = .error e) ↔
        ∃ pod ∈ l, ∃ e, st.GetByKey (PodStatus.podName pn pod) = .error e := by
  intro l
  induction l with
  | nil =>
    intro init
    simp [List.foldlM, pure, Except.pure]
  | cons pod rest ih =>
    intro init
    rw [List.foldlM_cons]
    cases hg : st.GetByKey (PodStatus.podName pn pod) with
    | error e0 =>
      have hb : PodStatus.body st pn init pod = .error e0 := by
        simp [PodStatus.body, hg]
      rw [hb]
      constructor
      · intro _
        exact ⟨pod, List.mem_cons_self _ _, e0, hg⟩
      · intro _
        exact ⟨e0, rfl⟩
    | ok o =>
      have hb : ∃ s1, PodStatus.body st pn init pod = .ok s1 := by
        unfold PodStatus.body
        rw [hg]
        rcases o with _ | ⟨p | _⟩ <;> exact ⟨_, rfl⟩
      obtain ⟨s1, hs1⟩ := hb
      rw [hs1]
      have h2 : (∃ e, (Except.ok s1 >>= fun s' => List.foldlM (PodStatus.body st pn) s' rest)
          = Except.error e) ↔ ∃ e, List.foldlM (PodStatus.body st pn) s1 rest = Except.error e :=
        Iff.rfl
      rw [h2, ih s1]
      constructor
      · rintro ⟨q, hq, e, he⟩
        exact ⟨q, List.mem_cons_of_mem _ hq, e, he⟩
      · rintro ⟨q, hq, e, he⟩
        rcases List.mem_cons.mp hq with rfl | hq
        · rw [hg] at he; cases he
        · exact ⟨q, hq, e, he⟩

theorem PodStatus_error_iff (s : statusController) :
    (∃ e, PodStatus s = .error e) ↔
      ∃ pod ∈ s.watchPods, ∃ e,
        s.podStore.GetByKey (PodStatus.podName s.podStore.ListKeys pod) = .error e :=
  foldlM_body_error s.podStore s.podStore.ListKeys s.watchPods ∅

theorem PodStatus_ok_of_no_error (s : statusController)
    (h : ∀ pod ∈ s.watchPods, ∀ e,
      s.podStore.GetByKey (PodStatus.podName s.podStore.ListKeys pod) ≠ .error e) :
    ∃ ps, PodStatus s = .ok ps := by
  cases hp : PodStatus s with
  | ok ps => exact ⟨ps, rfl⟩
  | error e =>
    obtain ⟨pod, hpod, e1, he1⟩ := (PodStatus_error_iff s).mp ⟨e, hp⟩
    exact absurd he1 (h pod hpod e1)

theorem PodStatus_lookup (s : statusController) (ps : PhaseMap) (h : PodStatus s = .ok ps)
    (k : String) :
    ps.lookup k =
      if k ∈ s.watchPods then PodStatus.recorded s.podStore s.podStore.ListKeys none k
      else none := by
  have := foldlM_body_lookup s.podStore s.podStore.ListKeys s.watchPods ∅ ps h k
  simpa using this

theorem DeepEqual_some_iff (a b : PhaseMap) :
    DeepEqual (some a) (some b) = true ↔ ∀ k, a.lookup k = b.lookup k := by
  unfold DeepEqual
  simp only [Bool.and_eq_true, decide_eq_true_eq, List.all_eq_true, beq_iff_eq]
  constructor
  · rintro ⟨hlen, hall⟩ k
    have hsub : a.entries ⊆ b.entries := by
      intro e he
      have := hall e he
      have h2 : e.2 ∈ AList.lookup e.1 b := by rw [Option.mem_def]; exact this
      exact AList.mem_lookup_iff.mp h2
    have hperm : a.entries.Perm b.entries :=
      (List.subperm_of_subset a.nodupKeys.nodup hsub).perm_of_length_le (le_of_eq hlen.symm)
    exact AList.perm_lookup hperm
  · intro h
    have hperm : a.entries.Perm b.entries := by
      apply List.lookup_ext a.nodupKeys b.nodupKeys
      intro x y
      have := h x
      simp only [AList.lookup] at this
      rw [this]
    refine ⟨hperm.length_eq, ?_⟩
    intro e he
    rw [← h e.1]
    have : e.2 ∈ AList.lookup e.1 a := AList.mem_lookup_iff.mpr he
    exact this

theorem range_foldl (changed : Bool) :
    ∀ (l : List (Sigma fun _ : String => PodPhase)) (b : Bool) (o : List Event),
      l.foldl
        (fun acc e =>
          ((if e.2 != PodRunning then false else acc.1,
            if changed then acc.2 ++ [Event.UserOutput "\tPod Status:%24s\t%s\n" [e.1, e.2]]
            else acc.2) : Bool × List Event))
        (b, o) =
      (b && l.all (fun e => e.2 == PodRunning),
        o ++ if changed then l.map statusLine else []) := by
  intro l
  induction l with
  | nil => intro b o; simp
  | cons e rest ih =>
    intro b o
    rw [List.foldl_cons, ih]
    by_cases he : e.2 = PodRunning <;> cases changed <;> cases b <;> simp [he, statusLine]

theorem range_eq (changed : Bool) (ps : PhaseMap) :
    AllRunning.range changed ps =
      (ps.entries.all (fun e => e.2 == PodRunning),
        if changed then ps.entries.map statusLine else []) := by
  unfold AllRunning.range
  rw [range_foldl]
  simp

theorem podName_foldl_no_match (pod : String) :
    ∀ (l : List String) (init : String),
      (∀ pn ∈ l, HasPrefix pn (Join [NamespaceSystem, pod]) = false) →
      l.foldl
        (fun podName pn => if HasPrefix pn (Join [NamespaceSystem, pod]) then pn else podName)
        init = init := by
  intro l
  induction l with
  | nil => intro init _; rfl
  | cons a rest ih =>
    intro init h
    rw [List.foldl_cons, h a (List.mem_cons_self _ _)]
    exact ih init (fun pn hpn => h pn (List.mem_cons_of_mem _ hpn))

theorem podName_no_match (podNames : List String) (pod : String)
    (h : ∀ pn ∈ podNames, HasPrefix pn (Join [NamespaceSystem, pod]) = false) :
    PodStatus.podName podNames pod = pod :=
  podName_foldl_no_match pod podNames pod h

theorem podName_last_match (pod k : String) (l1 l2 : List String)
    (hk : HasPrefix k (Join [NamespaceSystem, pod]) = true)
    (h2 : ∀ pn ∈ l2, HasPrefix pn (Join [NamespaceSystem, pod]) = false) :
    PodStatus.podName (l1 ++ k :: l2) pod = k := by
  unfold PodStatus.podName
  rw [List.foldl_append, List.foldl_cons, hk]
  exact podName_foldl_no_match pod l2 k h2

theorem AllRunning_err (s : statusController) : (AllRunning s).err = none := by
  unfold AllRunning
  cases PodStatus s <;> rfl

theorem Poll_err (sc : statusController) (ticks : List Store) :
    (Poll sc ticks).err = none ∨ (Poll sc ticks).err = some ErrWaitTimeout := by
  induction ticks generalizing sc with
  | nil => right; rfl
  | cons store rest ih =>
    unfold Poll
    simp only [AllRunning_err]
    split
    · left; rfl
    · exact ih _

theorem AllRunning_running_eq (s : statusController) (ps : PhaseMap) (h : PodStatus s = .ok ps) :
    (AllRunning s).running = ps.entries.all (fun e => e.2 == PodRunning) := by
  simp only [AllRunning, h, range_eq]

theorem AllRunning_out_events (s : statusController) :
    ∀ ev ∈ (AllRunning s).out, (∃ e, ev = statusLine e) ∨ ∃ f a, ev = Event.glogInfof f a := by
  intro ev hev
  unfold AllRunning at hev
  cases hp : PodStatus s with
  | error e =>
    rw [hp] at hev
    simp only [List.mem_singleton] at hev
    exact Or.inr ⟨_, _, hev⟩
  | ok ps =>
    rw [hp] at hev
    have hc : ∀ c, ev ∈ (AllRunning.range c ps).2 → ∃ e, ev = statusLine e := by
      intro c hmem
      rw [range_eq] at hmem
      cases c with
      | false => cases hmem
      | true =>
        obtain ⟨e, _, he⟩ := List.mem_map.mp hmem
        exact ⟨e, he.symm⟩
    exact Or.inl (hc _ hev)

theorem Poll_out_events (sc : statusController) (ticks : List Store) :
    ∀ ev ∈ (Poll sc ticks).out, (∃ e, ev = statusLine e) ∨ ∃ f a, ev = Event.glogInfof f a := by
  induction ticks generalizing sc with
  | nil => intro ev hev; cases hev
  | cons store rest ih =>
    intro ev hev
    unfold Poll at hev
    simp only [AllRunning_err] at hev
    split at hev
    · exact AllRunning_out_events _ ev hev
    · rcases List.mem_append.mp hev with h1 | h1
      · exact AllRunning_out_events _ ev h1
      · exact ih _ ev h1

theorem Migrate_not_mem_Poll (sc : statusController) (ticks : List Store) :
    Event.Migrate ∉ (Poll sc ticks).out := by
  intro h
  rcases Poll_out_events sc ticks _ h with ⟨e, he⟩ | ⟨f, a, he⟩
  · cases he
  · cases he

theorem successLine_not_mem_Poll (sc : statusController) (ticks : List Store) :
    successLine ∉ (Poll sc ticks).out := by
  intro h
  rcases Poll_out_events sc ticks _ h with ⟨e, he⟩ | ⟨f, a, he⟩
  · simp [successLine, statusLine] at he
  · cases he

theorem Poll_converged (sc : statusController) (ticks : List Store)
    (h : (Poll sc ticks).err = none) :
    ∃ pre store post, ticks = pre ++ store :: post ∧
      (Poll sc pre).err = some ErrWaitTimeout ∧
      (AllRunning { (Poll sc pre).sc with podStore := store }).running = true := by
  induction ticks generalizing sc with
  | nil => cases h
  | cons st rest ih =>
    by_cases hr : (AllRunning { sc with podStore := st }).running = true
    · exact ⟨[], st, rest, rfl, rfl, hr⟩
    · have hp : (Poll (AllRunning { sc with podStore := st }).sc rest).err = none := by
        unfold Poll at h
        simp only [AllRunning_err] at h
        rw [if_neg hr] at h
        exact h
      obtain ⟨pre, store, post, h1, h2, h3⟩ := ih _ hp
      refine ⟨st :: pre, store, post, by rw [h1]; rfl, ?_, ?_⟩
      · unfold Poll
        simp only [AllRunning_err]
        rw [if_neg hr]
        exact h2
      · have hsc : (Poll sc (st :: pre)).sc =
            (Poll (AllRunning { sc with podStore := st }).sc pre).sc := by
          conv_lhs => unfold Poll
          simp only [AllRunning_err]
          rw [if_neg hr]
        rw [hsc]
        exact h3

theorem AllRunning_running_iff (s : statusController) (ps : PhaseMap)
    (h : PodStatus s = .ok ps) :
    (AllRunning s).running = true ↔
      ∀ name ∈ s.watchPods, ∀ ph, ps.lookup name = some ph → ph = PodRunning := by
  rw [AllRunning_running_eq s ps h, List.all_eq_true]
  constructor
  · intro hall name _ ph hph
    have hmem : (⟨name, ph⟩ : Sigma fun _ : String => PodPhase) ∈ ps.entries :=
      AList.mem_lookup_iff.mp (by rw [Option.mem_def]; exact hph)
    simpa using hall _ hmem
  · intro hall e he
    have hl : ps.lookup e.1 = some e.2 := by
      have : e.2 ∈ AList.lookup e.1 ps := AList.mem_lookup_iff.mpr he
      exact this
    have hw : e.1 ∈ s.watchPods := by
      by_contra hn
      have := PodStatus_lookup s ps h e.1
      rw [if_neg hn, hl] at this
      cases this
    simpa using hall e.1 hw e.2 hl

theorem PodStatus_lookup_none_iff (s : statusController) (ps : PhaseMap)
    (h : PodStatus s = .ok ps) (name : String) (hn : name ∈ s.watchPods) :
    ps.lookup name = none ↔
      s.podStore.GetByKey (PodStatus.podName s.podStore.ListKeys name) = .ok (some .other) := by
  rw [PodStatus_lookup s ps h name, if_pos hn]
  unfold PodStatus.recorded
  cases hg : s.podStore.GetByKey (PodStatus.podName s.podStore.ListKeys name) with
  | error e =>
    exfalso
    obtain ⟨e2, he2⟩ := (PodStatus_error_iff s).mpr ⟨name, hn, e, hg⟩
    rw [h] at he2
    cases he2
  | ok o =>
    rcases o with _ | ⟨p | _⟩ <;> simp

/-! ## The claims -/

/-- C1, counterexample: the controller watches `a` and the object under the
matching key is not a pod.  `PodStatus` succeeds with an empty snapshot, in
which `a` is not mapped to `Running`, and yet `AllRunning` returns true: the
equivalence of the claim fails. -/
theorem C1_counterexample :
    "a" ∈ scOther.watchPods ∧ PodStatus scOther = .ok ∅ ∧
      (∅ : PhaseMap).lookup "a" ≠ some PodRunning ∧
      (AllRunning scOther).running = true ∧
      ¬ ((AllRunning scOther).running = true ↔
        ∀ name ∈ scOther.watchPods, (∅ : PhaseMap).lookup name = some PodRunning) := by
  refine ⟨by decide, rfl, by decide, by decide, ?_⟩
  intro hiff
  have hall := hiff.mp (by decide)
  exact absurd (hall "a" (by decide)) (by decide)

/-- C1, amended: when `PodStatus` succeeds with snapshot `ps`, `AllRunning` returns
true exactly when every target name is mapped to `Running` or has no entry; a
target name has no entry exactly when the object under its resolved key is not
a pod; so when no resolved key holds such an object, `AllRunning` returns true
exactly when every target name maps to `Running`.  A target name recorded with
any other phase makes it return false, and the returned boolean does not depend
on `lastPodPhases`. -/
theorem C1_AllRunning_iff_recorded_running (s : statusController) (ps : PhaseMap)
    (h : PodStatus s = .ok ps) :
    ((AllRunning s).running = true ↔
        ∀ name ∈ s.watchPods, ps.lookup name = some PodRunning ∨ ps.lookup name = none) ∧
      (∀ name ∈ s.watchPods,
        (ps.lookup name = none ↔
          s.podStore.GetByKey (PodStatus.podName s.podStore.ListKeys name) =
            .ok (some .other))) ∧
      ((∀ name ∈ s.watchPods,
          s.podStore.GetByKey (PodStatus.podName s.podStore.ListKeys name) ≠
            .ok (some .other)) →
        ((AllRunning s).running = true ↔
          ∀ name ∈ s.watchPods, ps.lookup name = some PodRunning)) ∧
      ((∃ name ∈ s.watchPods, ∃ ph, ps.lookup name = some ph ∧ ph ≠ PodRunning) →
        (AllRunning s).running = false) ∧
      ∀ last, (AllRunning { s with lastPodPhases := last }).running = (AllRunning s).running := by
  have hw := AllRunning_running_iff s ps h
  have hnone := PodStatus_lookup_none_iff s ps h
  have hiff : (AllRunning s).running = true ↔
      ∀ name ∈ s.watchPods, ps.lookup name = some PodRunning ∨ ps.lookup name = none := by
    rw [hw]
    constructor
    · intro hall name hn
      cases hl : ps.lookup name with
      | none => exact Or.inr rfl
      | some ph => rw [hall name hn ph hl]; exact Or.inl rfl
    · intro hall name hn ph hph
      rcases hall name hn with h1 | h1
      · rw [h1] at hph; exact (Option.some.inj hph).symm
      · rw [h1] at hph; cases hph
  refine ⟨hiff, hnone, ?_, ?_, ?_⟩
  · intro hpods
    rw [hiff]
    constructor
    · intro hall name hn
      rcases hall name hn with h1 | h1
      · exact h1
      · exact absurd ((hnone name hn).mp h1) (hpods name hn)
    · intro hall name hn
      exact Or.inl (hall name hn)
  · rintro ⟨name, hn, ph, hph, hne⟩
    cases hr : (AllRunning s).running with
    | false => rfl
    | true => exact absurd (hw.mp hr name hn ph hph) hne
  · intro last
    have h2 : PodStatus { s with lastPodPhases := last } = .ok ps := h
    rw [AllRunning_running_eq _ ps h2, AllRunning_running_eq s ps h]

/-- Scenario A converges; scenario B, where the only target does not exist, does
not; with a pod failed the predicate is false whatever was stored before. -/
theorem C1_witness :
    (AllRunning scA).running = true ∧ (AllRunning scB).running = false ∧
      (AllRunning { scAfterRun with podStore := storeFail }).running = false :=
  ⟨(C1_AllRunning_iff_recorded_running scA psA rfl).2.2.1 (by decide) |>.mpr (by decide),
   (C1_AllRunning_iff_recorded_running scB psB rfl).2.2.2.1
     ⟨"scheduler", by decide, doesNotExist, by decide, by decide⟩,
   (C1_AllRunning_iff_recorded_running { scAfterRun with podStore := storeFail } psFail
      rfl).2.2.2.1 ⟨"a", by decide, PodFailed, by decide, by decide⟩⟩

/-- C2, counterexample: a new controller (`lastPodPhases` nil) watching
`scheduler` on a store without content: `PodStatus` succeeds, and the first call
of `AllRunning` writes no `Pod Status` line for `scheduler` (it emits nothing). -/
theorem C2_counterexample :
    scB.lastPodPhases = none ∧ scB.watchPods = ["scheduler"] ∧ PodStatus scB = .ok psB ∧
      (AllRunning scB).out = [] ∧
      ¬ ∀ name ∈ scB.watchPods, ∃ ph, statusLine ⟨name, ph⟩ ∈ (AllRunning scB).out := by
  refine ⟨rfl, rfl, rfl, by decide, ?_⟩
  intro h
  obtain ⟨ph, hph⟩ := h "scheduler" (by decide)
  have hout : (AllRunning scB).out = [] := by decide
  rw [hout] at hph
  cases hph

/-- C2, amended: on a call of `AllRunning` with `lastPodPhases` nil for which
`PodStatus` succeeds, the snapshot is first stored and then compared with
itself, so no status line is emitted whatever the snapshot holds, and
`lastPodPhases` afterwards is the snapshot. -/
theorem C2_first_call_emits_nothing (s : statusController) (ps : PhaseMap)
    (hnil : s.lastPodPhases = none) (h : PodStatus s = .ok ps) :
    (AllRunning s).out = [] ∧ (AllRunning s).sc.lastPodPhases = some ps := by
  have hd : DeepEqual (some ps) (some ps) = true := (DeepEqual_some_iff ps ps).mpr (fun _ => rfl)
  simp [AllRunning, h, hnil, range_eq, hd]

/-- Scenario A: the first call stores the snapshot and prints nothing. -/
theorem C2_witness :
    (AllRunning scA).out = [] ∧ (AllRunning scA).sc.lastPodPhases = some psA :=
  C2_first_call_emits_nothing scA psA rfl rfl

/-- C3, counterexample: the controller watches `a`; a first successful call saw a
running pod and stored the snapshot `a ↦ Running`; in the next call the object
under the key is not a pod, so the snapshot is empty.  It differs from the
stored one under the key `a`, and yet no status line is emitted. -/
theorem C3_counterexample :
    PodStatus { scNew with podStore := storeRun } = .ok psRun ∧
      scAfterRun.lastPodPhases = some psRun ∧
      PodStatus { scAfterRun with podStore := storeOther } = .ok ∅ ∧
      (∅ : PhaseMap).lookup "a" ≠ psRun.lookup "a" ∧
      (AllRunning { scAfterRun with podStore := storeOther }).out = [] := by
  refine ⟨rfl, rfl, rfl, by decide, by decide⟩

/-- C3, amended: on a call of `AllRunning` with a stored snapshot `last` for which
`PodStatus` succeeds with snapshot `ps`, status lines are emitted if and only if
`ps` is not empty and differs from `last` under at least one key; in that case
there is one line per entry of `ps`; when the two are equal nothing is emitted;
in every case `lastPodPhases` afterwards is `ps`. -/
theorem C3_emits_iff_changed (s : statusController) (last ps : PhaseMap)
    (hlast : s.lastPodPhases = some last) (h : PodStatus s = .ok ps) :
    ((AllRunning s).out ≠ [] ↔ ps.entries ≠ [] ∧ ∃ k, ps.lookup k ≠ last.lookup k) ∧
      ((∃ k, ps.lookup k ≠ last.lookup k) → (AllRunning s).out = ps.entries.map statusLine) ∧
      ((∀ k, ps.lookup k = last.lookup k) → (AllRunning s).out = []) ∧
      (AllRunning s).sc.lastPodPhases = some ps := by
  have hout : (AllRunning s).out =
      if DeepEqual (some ps) (some last) then [] else ps.entries.map statusLine := by
    cases hx : DeepEqual (some ps) (some last) <;> simp [AllRunning, h, hlast, range_eq, hx]
  have hsc : (AllRunning s).sc.lastPodPhases = some ps := by
    simp [AllRunning, h, hlast]
  have hd := DeepEqual_some_iff ps last
  by_cases hall : ∀ k, ps.lookup k = last.lookup k
  · have hde : DeepEqual (some ps) (some last) = true := hd.mpr hall
    rw [hde] at hout
    refine ⟨?_, ?_, fun _ => by simpa using hout, hsc⟩
    · constructor
      · intro hne; exact absurd (by simpa using hout) hne
      · rintro ⟨_, k, hk⟩; exact absurd (hall k) hk
    · rintro ⟨k, hk⟩; exact absurd (hall k) hk
  · have hde : DeepEqual (some ps) (some last) = false := by
      cases hx : DeepEqual (some ps) (some last) with
      | false => rfl
      | true => exact absurd (hd.mp hx) hall
    rw [hde] at hout
    have hout2 : (AllRunning s).out = ps.entries.map statusLine := by simpa using hout
    have hex : ∃ k, ps.lookup k ≠ last.lookup k := not_forall.mp hall
    refine ⟨?_, fun _ => hout2, fun h2 => absurd h2 hall, hsc⟩
    rw [hout2]
    constructor
    · intro hne
      refine ⟨?_, hex⟩
      intro he
      rw [he] at hne
      exact hne rfl
    · rintro ⟨hne, _⟩ hmap
      exact hne (List.map_eq_nil_iff.mp hmap)

/-- After a call that saw `a` running: a failed pod prints one line, an unchanged one none. -/
theorem C3_witness :
    (AllRunning { scAfterRun with podStore := storeFail }).out = [statusLine ⟨"a", PodFailed⟩] ∧
      (AllRunning { scAfterRun with podStore := storeRun }).out = [] :=
  ⟨(C3_emits_iff_changed { scAfterRun with podStore := storeFail } psRun psFail rfl rfl).2.1
      ⟨"a", by decide⟩,
   (C3_emits_iff_changed { scAfterRun with podStore := storeRun } psRun psRun rfl rfl).2.2.1
      (fun _ => rfl)⟩

/-- C4: `AllRunning` never returns an error.  When `PodStatus` returns an error,
which happens exactly when `GetByKey` fails for the key resolved for some target
name, `AllRunning` returns `(false, nil)`, logs the error, emits no status line
(no `UserOutput` at all) and leaves the controller, `lastPodPhases` included,
as it was.  Hence the poll ends with nil or with the timeout error only. -/
theorem C4_retrieval_errors_absorbed (s : statusController) :
    (AllRunning s).err = none ∧
      (∀ e, PodStatus s = .error e →
        (AllRunning s).running = false ∧
        (AllRunning s).out = [Event.glogInfof "Error retriving pod statuses: %v" [e]] ∧
        (∀ f a, Event.UserOutput f a ∉ (AllRunning s).out) ∧
        (AllRunning s).sc.lastPodPhases = s.lastPodPhases) ∧
      ((∃ e, PodStatus s = .error e) ↔
        ∃ pod ∈ s.watchPods, ∃ e,
          s.podStore.GetByKey (PodStatus.podName s.podStore.ListKeys pod) = .error e) ∧
      ∀ ticks, (Poll s ticks).err = none ∨ (Poll s ticks).err = some ErrWaitTimeout := by
  refine ⟨AllRunning_err s, ?_, PodStatus_error_iff s, Poll_err s⟩
  intro e he
  simp [AllRunning, he]

/-- A store whose `GetByKey` fails: the call returns `(false, nil)` and keeps `lastPodPhases`. -/
theorem C4_witness :
    PodStatus scErr = .error "store closed" ∧
      (AllRunning scErr).running = false ∧ (AllRunning scErr).err = none ∧
      (AllRunning scErr).sc.lastPodPhases = scErr.lastPodPhases :=
  ⟨rfl, ((C4_retrieval_errors_absorbed scErr).2.1 "store closed" rfl).1,
    (C4_retrieval_errors_absorbed scErr).1,
    ((C4_retrieval_errors_absorbed scErr).2.1 "store closed" rfl).2.2.2⟩

/-- C5, counterexample: the store holds one running pod under the key
`kube-system/etcd`, and the target is written `kube-system/etcd`.  No listed key
has the prefix `kube-system/kube-system/etcd`, yet the target is looked up under
its own name, found, and mapped to `Running`, not to `DoesNotExist`. -/
theorem C5_counterexample :
    "kube-system/etcd" ∈ scBare.watchPods ∧
      (∀ pn ∈ scBare.podStore.ListKeys,
        HasPrefix pn (Join [NamespaceSystem, "kube-system/etcd"]) = false) ∧
      PodStatus scBare = .ok psBare ∧
      psBare.lookup "kube-system/etcd" = some PodRunning ∧
      psBare.lookup "kube-system/etcd" ≠ some doesNotExist := by
  refine ⟨by decide, by decide, rfl, by decide, by decide⟩

/-- C5, amended: for a logical name of the target list, if no key returned by
`ListKeys` has the prefix `namespace/logicalName` and the store reports, without
error, that nothing exists under the logical name itself, then the iteration of
`PodStatus` for that name succeeds and maps it to `DoesNotExist`, and so does
every snapshot that `PodStatus` returns. -/
theorem C5_no_match_is_doesNotExist (s : statusController) (pod : String)
    (hpod : pod ∈ s.watchPods)
    (hno : ∀ pn ∈ s.podStore.ListKeys, HasPrefix pn (Join [NamespaceSystem, pod]) = false)
    (hbare : s.podStore.GetByKey pod = .ok none) :
    (∀ status, PodStatus.body s.podStore s.podStore.ListKeys status pod =
        .ok (status.insert pod doesNotExist)) ∧
      ∀ ps, PodStatus s = .ok ps → ps.lookup pod = some doesNotExist := by
  have hname := podName_no_match s.podStore.ListKeys pod hno
  constructor
  · intro status
    simp [PodStatus.body, hname, hbare]
  · intro ps hps
    rw [PodStatus_lookup s ps hps pod, if_pos hpod]
    simp [PodStatus.recorded, hname, hbare]

/-- Scenario B: `scheduler` matches nothing and is not a key, and becomes `DoesNotExist`. -/
theorem C5_witness :
    PodStatus.body scB.podStore scB.podStore.ListKeys ∅ "scheduler" = .ok psB ∧
      psB.lookup "scheduler" = some doesNotExist :=
  ⟨(C5_no_match_is_doesNotExist scB "scheduler" (by decide) (by decide) rfl).1 ∅,
   (C5_no_match_is_doesNotExist scB "scheduler" (by decide) (by decide) rfl).2 psB rfl⟩

/-- C6: for a logical name of the target list, if `k` is the last key in the
enumeration order of `ListKeys` that has the prefix `namespace/logicalName`, and
the store holds the pod `p` under `k`, then the iteration of `PodStatus` for that
name succeeds and maps it to the phase of `p`, and so does every snapshot that
`PodStatus` returns. -/
theorem C6_last_match_wins (s : statusController) (pod k : String) (l1 l2 : List String)
    (p : Pod) (hpod : pod ∈ s.watchPods)
    (hkeys : s.podStore.ListKeys = l1 ++ k :: l2)
    (hk : HasPrefix k (Join [NamespaceSystem, pod]) = true)
    (hlast : ∀ pn ∈ l2, HasPrefix pn (Join [NamespaceSystem, pod]) = false)
    (hget : s.podStore.GetByKey k = .ok (some (.pod p))) :
    (∀ status, PodStatus.body s.podStore s.podStore.ListKeys status pod =
        .ok (status.insert pod p.Phase)) ∧
      ∀ ps, PodStatus s = .ok ps → ps.lookup pod = some p.Phase := by
  have hname : PodStatus.podName s.podStore.ListKeys pod = k := by
    rw [hkeys]; exact podName_last_match pod k l1 l2 hk hlast
  constructor
  · intro status
    simp [PodStatus.body, hname, hget]
  · intro ps hps
    rw [PodStatus_lookup s ps hps pod, if_pos hpod]
    simp [PodStatus.recorded, hname, hget]

/-- Two pods match `etcd`; the phase of the one listed last is recorded. -/
theorem C6_witness :
    PodStatus scTwo = .ok psTwo ∧ psTwo.lookup "etcd" = some PodRunning :=
  ⟨rfl,
   (C6_last_match_wins scTwo "etcd" "kube-system/etcd-new"
      ["kube-system/etcd-old", "kube-system/other"] ["kube-system/zzz"] ⟨PodRunning⟩
      (by decide) rfl (by decide) (by decide) rfl).2 psTwo rfl⟩

/-- C7, counterexample: the controller watches `a` and the store holds, under
the matching key, an object that is not a pod.  `PodStatus` returns without
error, and the returned map has no entry for `a`. -/
theorem C7_counterexample :
    "a" ∈ scOther.watchPods ∧ PodStatus scOther = .ok ∅ ∧ "a" ∉ (∅ : PhaseMap).keys := by
  refine ⟨by decide, rfl, by decide⟩

/-- C7, amended: a map that `PodStatus` returns without error has no two entries
with the same key, has no key outside the target list, and has an entry for a
logical name of the target list exactly when the object found under its
resolved key, if there is one, is a pod.  So when no resolved key holds an
object that is not a pod, the key set equals the set of names in `watchPods`. -/
theorem C7_snapshot_keys (s : statusController) (ps : PhaseMap) (h : PodStatus s = .ok ps) :
    ps.keys.Nodup ∧
      (∀ name ∈ ps.keys, name ∈ s.watchPods) ∧
      (∀ name ∈ s.watchPods,
        (name ∈ ps.keys ↔
          s.podStore.GetByKey (PodStatus.podName s.podStore.ListKeys name) ≠
            .ok (some .other))) ∧
      ((∀ name ∈ s.watchPods,
          s.podStore.GetByKey (PodStatus.podName s.podStore.ListKeys name) ≠
            .ok (some .other)) →
        ∀ name, name ∈ ps.keys ↔ name ∈ s.watchPods) := by
  have hkey : ∀ name, name ∈ ps.keys ↔ (ps.lookup name).isSome := by
    intro name
    rw [AList.lookup_isSome, AList.mem_keys]
  have hout : ∀ name ∈ ps.keys, name ∈ s.watchPods := by
    intro name hn
    by_contra hcon
    have h1 := (hkey name).mp hn
    rw [PodStatus_lookup s ps h name, if_neg hcon] at h1
    cases h1
  have hin : ∀ name ∈ s.watchPods,
      (name ∈ ps.keys ↔
        s.podStore.GetByKey (PodStatus.podName s.podStore.ListKeys name) ≠
          .ok (some .other)) := by
    intro name hn
    rw [hkey name, PodStatus_lookup s ps h name, if_pos hn]
    unfold PodStatus.recorded
    cases hg : s.podStore.GetByKey (PodStatus.podName s.podStore.ListKeys name) with
    | error e =>
      exfalso
      have := (PodStatus_error_iff s).mpr ⟨name, hn, e, hg⟩
      obtain ⟨e2, he2⟩ := this
      rw [h] at he2
      cases he2
    | ok o =>
      rcases o with _ | ⟨p | _⟩ <;> simp
  refine ⟨ps.keys_nodup, hout, hin, ?_⟩
  intro hpods name
  constructor
  · exact hout name
  · intro hn
    exact (hin name hn).mpr (hpods name hn)

/-- Scenario A: the keys of the snapshot are the target names. -/
theorem C7_witness :
    PodStatus scA = .ok psA ∧ ("etcd" ∈ psA.keys ↔ "etcd" ∈ scA.watchPods) ∧
      ("scheduler" ∈ psA.keys ↔ "scheduler" ∈ scA.watchPods) :=
  ⟨rfl, (C7_snapshot_keys scA psA rfl).2.2.2 (by decide) "etcd",
    (C7_snapshot_keys scA psA rfl).2.2.2 (by decide) "scheduler"⟩

/-- C8: when the store is empty (`ListKeys` returns no key and `GetByKey` finds
nothing under any key), `PodStatus` returns without error a snapshot that maps
every logical name of the target list to `DoesNotExist` and has no other entry,
and for a non-empty target list `AllRunning` returns false. -/
theorem C8_empty_store (s : statusController) (_hkeys : s.podStore.ListKeys = [])
    (hget : ∀ k, s.podStore.GetByKey k = .ok none) :
    ∃ ps, PodStatus s = .ok ps ∧
      (∀ name, ps.lookup name = if name ∈ s.watchPods then some doesNotExist else none) ∧
      (s.watchPods ≠ [] → (AllRunning s).running = false) := by
  obtain ⟨ps, hps⟩ := PodStatus_ok_of_no_error s (by
    intro pod _ e he
    rw [hget] at he
    cases he)
  have hlook : ∀ name, ps.lookup name =
      if name ∈ s.watchPods then some doesNotExist else none := by
    intro name
    rw [PodStatus_lookup s ps hps name]
    simp [PodStatus.recorded, hget]
  refine ⟨ps, hps, hlook, ?_⟩
  intro hne
  obtain ⟨name, hname⟩ := List.exists_mem_of_ne_nil _ hne
  have hl := hlook name
  rw [if_pos hname] at hl
  have hmem : (⟨name, doesNotExist⟩ : Sigma fun _ : String => PodPhase) ∈ ps.entries :=
    AList.mem_lookup_iff.mp (by rw [Option.mem_def]; exact hl)
  rw [AllRunning_running_eq s ps hps]
  cases hx : ps.entries.all (fun e => e.2 == PodRunning) with
  | false => rfl
  | true =>
    have hdne := List.all_eq_true.mp hx _ hmem
    simp [doesNotExist, PodRunning] at hdne

/-- Scenario B: the snapshot maps `scheduler` to `DoesNotExist` and the predicate is false. -/
theorem C8_witness :
    PodStatus scB = .ok psB ∧
      ∃ ps, PodStatus scB = .ok ps ∧
        (∀ name, ps.lookup name = if name ∈ scB.watchPods then some doesNotExist else none) ∧
        (scB.watchPods ≠ [] → (AllRunning scB).running = false) :=
  ⟨rfl, C8_empty_store scB rfl (fun _ => rfl)⟩

/-- C9, counterexample: one target, `scheduler`, and three ticks that find no
pod.  The poll ends by timeout; the last observed snapshot maps `scheduler` to
`DoesNotExist`; the error returned is the fixed message, in which neither the
name `scheduler` nor the phase `DoesNotExist` occurs. -/
theorem C9_counterexample :
    (Poll (started ["scheduler"]) envB.ticks).err = some ErrWaitTimeout ∧
      (Poll (started ["scheduler"]) envB.ticks).sc.lastPodPhases = some psB ∧
      (WaitUntilPodsRunning envB ["scheduler"] false).1 =
        some "error while checking pod status: timed out waiting for the condition" ∧
      ¬ ("scheduler".data <:+:
        "error while checking pod status: timed out waiting for the condition".data) ∧
      ¬ ("DoesNotExist".data <:+:
        "error while checking pod status: timed out waiting for the condition".data) := by
  refine ⟨by decide, rfl, by decide, by decide, by decide⟩

/-- C9, amended: whenever the client is built and the poll in
`WaitUntilPodsRunning` ends by timeout, the error returned to the caller is the
fixed message `error while checking pod status: timed out waiting for the
condition`, whatever was observed, and nothing is emitted after the output of
the poll; the snapshots appear only in the status lines emitted earlier. -/
theorem C9_timeout_error_is_fixed (env : Env) (pods : List String) (selfHostedEtcd : Bool)
    (hnew : env.NewForConfig = none)
    (htimeout : (Poll (started pods) env.ticks).err = some ErrWaitTimeout) :
    WaitUntilPodsRunning env pods selfHostedEtcd =
      (some "error while checking pod status: timed out waiting for the condition",
        (Poll (started pods) env.ticks).out) := by
  unfold started at htimeout
  unfold WaitUntilPodsRunning NewStatusController started
  simp only [hnew, htimeout]
  congr 1

/-- Scenario B over three ticks: the caller gets the fixed timeout message. -/
theorem C9_witness :
    WaitUntilPodsRunning envB ["scheduler"] true =
      (some "error while checking pod status: timed out waiting for the condition",
        (Poll (started ["scheduler"]) envB.ticks).out) :=
  C9_timeout_error_is_fixed envB ["scheduler"] true rfl (by decide)

/-- C10: in a run of `WaitUntilPodsRunning`, `etcdutil.Migrate` is invoked exactly
when `selfHostedEtcd` is set, the client was built and the poll ended without
error.  When it is invoked, some call of `AllRunning` returned true after all
earlier ones had returned false, and the invocation follows all output of the
poll.  When the construction of the controller failed or the poll returned an
error, `Migrate` is not invoked, a non-nil error is returned and the success
line is not printed. -/
theorem C10_migrate_gated_on_convergence (env : Env) (pods : List String)
    (selfHostedEtcd : Bool) :
    ((Event.Migrate ∈ (WaitUntilPodsRunning env pods selfHostedEtcd).2) ↔
        (selfHostedEtcd = true ∧ env.NewForConfig = none ∧
          (Poll (started pods) env.ticks).err = none)) ∧
      (Event.Migrate ∈ (WaitUntilPodsRunning env pods selfHostedEtcd).2 →
        (∃ pre store post, env.ticks = pre ++ store :: post ∧
          (Poll (started pods) pre).err = some ErrWaitTimeout ∧
          (AllRunning { (Poll (started pods) pre).sc with podStore := store }).running = true) ∧
        (∃ rest, (WaitUntilPodsRunning env pods selfHostedEtcd).2 =
          (Poll (started pods) env.ticks).out ++ Event.Migrate :: rest) ∧
        Event.Migrate ∉ (Poll (started pods) env.ticks).out) ∧
      ((env.NewForConfig ≠ none ∨ (Poll (started pods) env.ticks).err ≠ none) →
        Event.Migrate ∉ (WaitUntilPodsRunning env pods selfHostedEtcd).2 ∧
        (WaitUntilPodsRunning env pods selfHostedEtcd).1 ≠ none ∧
        successLine ∉ (WaitUntilPodsRunning env pods selfHostedEtcd).2) := by
  have hM := Migrate_not_mem_Poll (started pods) env.ticks
  have hS := successLine_not_mem_Poll (started pods) env.ticks
  have hiff : (Event.Migrate ∈ (WaitUntilPodsRunning env pods selfHostedEtcd).2) ↔
      (selfHostedEtcd = true ∧ env.NewForConfig = none ∧
        (Poll (started pods) env.ticks).err = none) := by
    unfold WaitUntilPodsRunning NewStatusController
    cases hn : env.NewForConfig with
    | some e => simp
    | none =>
      simp only []
      change (Event.Migrate ∈ (match (Poll (started pods) env.ticks).err with
        | some err => (some ("error while checking pod status: " ++ err),
            (Poll (started pods) env.ticks).out)
        | none => if selfHostedEtcd = true then
            match env.Migrate with
            | some err => (some err, (Poll (started pods) env.ticks).out ++ [Event.Migrate])
            | none => (none, (Poll (started pods) env.ticks).out ++ [Event.Migrate, successLine])
          else (none, (Poll (started pods) env.ticks).out ++ [successLine])).2) ↔ _
      cases hp : (Poll (started pods) env.ticks).err with
      | some e => simp [hM]
      | none =>
        cases selfHostedEtcd with
        | false => simp [hM, successLine]
        | true => cases env.Migrate <;> simp
  refine ⟨hiff, ?_, ?_⟩
  · intro hmem
    obtain ⟨hs, hn, hp⟩ := hiff.mp hmem
    refine ⟨Poll_converged _ _ hp, ?_, hM⟩
    unfold WaitUntilPodsRunning NewStatusController
    simp only [hn]
    change ∃ rest, (match (Poll (started pods) env.ticks).err with
        | some err => (some ("error while checking pod status: " ++ err),
            (Poll (started pods) env.ticks).out)
        | none => if selfHostedEtcd = true then
            match env.Migrate with
            | some err => (some err, (Poll (started pods) env.ticks).out ++ [Event.Migrate])
            | none => (none, (Poll (started pods) env.ticks).out ++ [Event.Migrate, successLine])
          else (none, (Poll (started pods) env.ticks).out ++ [successLine])).2 = _
    rw [hp, hs]
    cases env.Migrate with
    | some e => exact ⟨[], rfl⟩
    | none => exact ⟨[successLine], rfl⟩
  · intro hfail
    unfold WaitUntilPodsRunning NewStatusController
    cases hn : env.NewForConfig with
    | some e => simp
    | none =>
      simp only []
      change Event.Migrate ∉ (match (Poll (started pods) env.ticks).err with
        | some err => (some ("error while checking pod status: " ++ err),
            (Poll (started pods) env.ticks).out)
        | none => if selfHostedEtcd = true then
            match env.Migrate with
            | some err => (some err, (Poll (started pods) env.ticks).out ++ [Event.Migrate])
            | none => (none, (Poll (started pods) env.ticks).out ++ [Event.Migrate, successLine])
          else (none, (Poll (started pods) env.ticks).out ++ [successLine])).2 ∧ _
      cases hp : (Poll (started pods) env.ticks).err with
      | none =>
        rcases hfail with h1 | h1
        · exact absurd hn h1
        · exact absurd hp h1
      | some e =>
        have hp2 : (Poll (Run ⟨newStore, pods, none⟩) env.ticks).err = some e := hp
        simp only [hp2]
        exact ⟨hM, by simp, hS⟩

/-- A run that converges invokes `Migrate`; a run that times out and a run without client do not. -/
theorem C10_witness :
    Event.Migrate ∈ (WaitUntilPodsRunning envRun ["a"] true).2 ∧
      Event.Migrate ∉ (WaitUntilPodsRunning envB ["scheduler"] true).2 ∧
      (WaitUntilPodsRunning envFatal ["a"] true).1 ≠ none :=
  ⟨(C10_migrate_gated_on_convergence envRun ["a"] true).1.mpr (by decide),
   ((C10_migrate_gated_on_convergence envB ["scheduler"] true).2.2 (Or.inr (by decide))).1,
   ((C10_migrate_gated_on_convergence envFatal ["a"] true).2.2 (Or.inl (by decide))).2.1⟩

end Bootkube
